/-
Verification of the batch HTTP downloader (src/main.rs, src/download.rs).

The program is shallowly embedded: the HTTP layer is an abstract server
function from a full request address to a response (transport failure or an
HTTP status with a body delivered as a stream of chunks, any of which may be
an I/O error), and the filesystem is an explicit state of created
directories and files (association list from path to byte content).
`download_file` and the driver loop of `main` are translated from the Rust
source; a panic is modelled as an aborted outcome carrying the message and
the state at the moment of the abort.
-/
import Mathlib

namespace ThreadDownload

/-- A chunk of an HTTP response body: either bytes that arrive intact, or an
I/O error raised while reading the stream (mid-transfer failure). -/
inductive Chunk where
  | bytes (bs : List Nat) : Chunk
  | ioErr (msg : String) : Chunk
deriving DecidableEq, Repr

/-- The result of issuing a blocking GET to one address: either a transport
failure (DNS, connection refused, ...) before any response arrives, or an
HTTP response with a status code and a body stream. -/
inductive Response where
  | transportErr (msg : String) : Response
  | http (code : Nat) (body : List Chunk) : Response
deriving DecidableEq, Repr

/-- The network: a function from a full request address to its response. -/
def Server : Type := String → Response

/-- The local filesystem: the set of directories that exist (as a list of
paths) and the files on disk (association list from path to byte content). -/
structure FS where
  dirs : List String
  files : List (String × List Nat)
deriving DecidableEq, Repr

/-- Observable process state: the filesystem plus the lines printed so far. -/
structure PState where
  fs : FS
  output : List String
deriving DecidableEq, Repr

/-- Outcome of running a piece of the program: normal continuation with a
state, or a process abort (Rust panic) with its message and the state at the
moment of the abort. -/
inductive Outcome where
  | ok (st : PState) : Outcome
  | panicked (msg : String) (st : PState) : Outcome
deriving DecidableEq, Repr

/-- Split a character list at every `/` (same semantics as splitting the
string on the separator `/`). -/
def splitSlash : List Char → List (List Char)
  | [] => [[]]
  | c :: cs =>
    if c = '/' then [] :: splitSlash cs
    else
      match splitSlash cs with
      | h :: t => (c :: h) :: t
      | [] => [[c]]

/-- The components of `Path::new(p)` as used here: the `/`-separated parts. -/
def pathParts (p : String) : List String :=
  (splitSlash p.data).map (fun cs => String.mk cs)

/-- Join path components back with `/` separators. -/
def joinSlash : List String → String
  | [] => ""
  | [p] => p
  | p :: rest => p ++ "/" ++ joinSlash rest

/-- The chain of ancestor paths created by `std::fs::create_dir_all(p)`:
every prefix of the component list, joined back with `/`, including `p`
itself. -/
def ancestors (p : String) : List String :=
  (List.range (pathParts p).length).map
    (fun i => joinSlash ((pathParts p).take (i + 1)))

/-- Add one directory to the list of existing directories (no duplicates). -/
def addDir (d : String) (dirs : List String) : List String :=
  if dirs.contains d then dirs else dirs ++ [d]

/-- Model of `std::fs::create_dir_all(p)`: creates `p` and all missing ancestors;
succeeds even when the directory already exists. -/
def createDirAll (p : String) (fs : FS) : FS :=
  { fs with dirs := (ancestors p).foldl (fun ds d => addDir d ds) fs.dirs }

/-- The parent directory of a path, `none` when the path is a single
component (so its parent is the working directory, which always exists). -/
def parentDir (p : String) : Option String :=
  if (pathParts p).length ≤ 1 then none
  else some (joinSlash (pathParts p).dropLast)

/-- Whether a directory exists in the filesystem; the empty path is the
filesystem root and always exists. -/
def dirExists (fs : FS) (d : String) : Bool :=
  d = "" || fs.dirs.contains d

/-- Whether `File::create p` can succeed: the parent directory of `p` must
already exist (`File::create` does not create intermediate directories). -/
def canCreateFile (fs : FS) (p : String) : Bool :=
  match parentDir p with
  | none => true
  | some d => dirExists fs d

/-- Store content for a path, replacing any previous content at that path
(`File::create` truncates an existing file; nothing is appended). -/
def setFile (p : String) (bs : List Nat) (files : List (String × List Nat)) :
    List (String × List Nat) :=
  (p, bs) :: files.filter (fun e => e.1 ≠ p)

/-- Whether a path is absolute (begins with `/`). -/
def isAbsolute (p : String) : Bool :=
  match p.data with
  | [] => false
  | c :: _ => c = '/'

/-- Model of `Path::join` on the paths appearing here: an absolute right-hand path
replaces the base, otherwise the two are joined with a `/`. -/
def pathJoin (base p : String) : String :=
  if isAbsolute p then p else base ++ "/" ++ p

/-- Result of `std::io::copy` from the response stream into the file: on
success the total byte content, on failure the bytes already written before
the error together with the error message. -/
inductive CopyResult where
  | ok (bs : List Nat) : CopyResult
  | failed (written : List Nat) (msg : String) : CopyResult
deriving DecidableEq, Repr

/-- Model of `std::io::copy`: drains the chunk stream into the file, stopping at the
first I/O error; bytes of chunks read before the error stay written. -/
def ioCopy : List Chunk → CopyResult
  | [] => .ok []
  | .bytes bs :: rest =>
    match ioCopy rest with
    | .ok tail => .ok (bs ++ tail)
    | .failed w e => .failed (bs ++ w) e
  | .ioErr e :: _ => .failed [] e

/-- The check of `reqwest::Response::error_for_status`: it fails exactly on 4xx and 5xx. -/
def isErrorStatus (code : Nat) : Bool := 400 ≤ code && code < 600

/-- Panic message for a failed GET request (transport failure). -/
def msgGetFail (file_url e : String) : String :=
  "Falha ao enviar requisição GET para a URL '" ++ file_url ++ "': " ++ e

/-- Panic message for a 404 response. -/
def msgNotFound (filename file_url : String) : String :=
  "Arquivo '" ++ filename ++ "' não encontrado na URL '" ++ file_url ++
    "'. O servidor retornou 404 Not Found."

/-- Panic message for any other HTTP error status. -/
def msgHttpErr (filename file_url : String) (code : Nat) : String :=
  "Erro HTTP ao tentar baixar o arquivo '" ++ filename ++ "' da URL '" ++
    file_url ++ "'. Status: Some(" ++ toString code ++ ")."

/-- Panic message for a failed `File::create`. -/
def msgCreateFail (local_file_path : String) : String :=
  "Falha ao criar o arquivo local '" ++ local_file_path ++ "'"

/-- Panic message for a failed `std::io::copy`. -/
def msgCopyFail (local_file_path e : String) : String :=
  "Falha ao copiar o conteúdo baixado para o arquivo '" ++ local_file_path ++
    "': " ++ e

/-- Success line printed after a completed download. -/
def msgDone (filename local_file_path : String) (bytes_copied : Nat) : String :=
  "Download do arquivo '" ++ filename ++ "' para '" ++ local_file_path ++
    "' (" ++ toString bytes_copied ++ " bytes) concluído com sucesso!"

/-- Translation of `download_file` from src/download.rs: builds `url + "/" + filename`,
issues the GET, aborts on transport failure, aborts on a 4xx/5xx status
(with a dedicated message for 404), creates the `downloads` directory,
creates (truncating) the local file `downloads/<filename>`, and copies the
response body into it, aborting if the copy fails and printing a success
line otherwise. -/
def download_file (server : Server) (url filename : String) (st : PState) :
    Outcome :=
  let file_url := url ++ "/" ++ filename
  match server file_url with
  | .transportErr e => .panicked (msgGetFail file_url e) st
  | .http code body =>
    if isErrorStatus code then
      if code = 404 then
        .panicked (msgNotFound filename file_url) st
      else
        .panicked (msgHttpErr filename file_url code) st
    else
      let fs1 := createDirAll "downloads" st.fs
      let local_file_path := pathJoin "downloads" filename
      if canCreateFile fs1 local_file_path then
        match ioCopy body with
        | .ok bs =>
          .ok { fs := { fs1 with files := setFile local_file_path bs fs1.files },
                output := st.output ++ [msgDone filename local_file_path bs.length] }
        | .failed w e =>
          .panicked (msgCopyFail local_file_path e)
            { st with
              fs := { fs1 with files := setFile local_file_path w fs1.files } }
      else
        .panicked (msgCreateFail local_file_path) { st with fs := fs1 }

/-- The compiled-in base location (`URL` in src/main.rs). -/
def URL : String := "http://arquivos.afonsomiguel.com"

/-- The compiled-in identifier list (`filename_list` in src/main.rs). -/
def filename_list : List String :=
  ["arquivo_1.jpg", "arquivo_2.jpg", "arquivo_3.jpg", "arquivo_4.jpg",
   "arquivo_5.jpg", "arquivo_6.jpg", "arquivo_7.jpg", "arquivo_8.jpg",
   "arquivo_9.jpg"]

/-- The `for filename in filename_list { download_file(URL, filename); }`
loop of `main`: sequential calls, a panic in any call aborts the process. -/
def runLoop (server : Server) (url : String) :
    List String → PState → Outcome
  | [], st => .ok st
  | f :: rest, st =>
    match download_file server url f st with
    | .ok st1 => runLoop server url rest st1
    | .panicked m st1 => .panicked m st1

/-- The state at process start: no directories, no files, no output. -/
def initialState : PState := { fs := { dirs := [], files := [] }, output := [] }

/-- Format `{:.1}` applied to `millis as f32 / 1000.`: seconds to one decimal place,
modelled exactly on naturals (tenths of a second, rounded to nearest). -/
def fmtElapsed (millis : Nat) : String :=
  let tenths := (millis + 50) / 100
  toString (tenths / 10) ++ "." ++ toString (tenths % 10)

/-- The summary line printed after the loop. -/
def msgElapsed (millis : Nat) : String :=
  "Downloaded files in " ++ fmtElapsed millis ++ " seconds"

/-- Translation of `main` from src/main.rs: runs the loop over the static list from a fresh
state; when every download succeeds, prints the elapsed duration (supplied
here as the measured wall-clock milliseconds, a quantity external to the
program). -/
def main_run (server : Server) (elapsed_millis : Nat) : Outcome :=
  match runLoop server URL filename_list initialState with
  | .ok st => .ok { st with output := st.output ++ [msgElapsed elapsed_millis] }
  | .panicked m st => .panicked m st


theorem download_file_transport (server : Server) (url f e : String) (st : PState)
    (h : server (url ++ "/" ++ f) = .transportErr e) :
    download_file server url f st = .panicked (msgGetFail (url ++ "/" ++ f) e) st := by
  simp only [download_file]
  rw [h]

theorem download_file_404 (server : Server) (url f : String) (body : List Chunk) (st : PState)
    (h : server (url ++ "/" ++ f) = .http 404 body) :
    download_file server url f st = .panicked (msgNotFound f (url ++ "/" ++ f)) st := by
  simp only [download_file]
  rw [h]
  simp [isErrorStatus]

theorem download_file_httpErr (server : Server) (url f : String) (code : Nat) (body : List Chunk)
    (st : PState) (h : server (url ++ "/" ++ f) = .http code body)
    (herr : isErrorStatus code = true) (h404 : code ≠ 404) :
    download_file server url f st = .panicked (msgHttpErr f (url ++ "/" ++ f) code) st := by
  simp only [download_file]
  rw [h]
  simp [herr, h404]

theorem download_file_ok_of (server : Server) (url f : String) (code : Nat) (body : List Chunk)
    (bs : List Nat) (st : PState)
    (h : server (url ++ "/" ++ f) = .http code body)
    (hok : isErrorStatus code = false)
    (hcc : canCreateFile (createDirAll "downloads" st.fs) (pathJoin "downloads" f) = true)
    (hcopy : ioCopy body = .ok bs) :
    download_file server url f st =
      .ok { fs := { createDirAll "downloads" st.fs with
                      files := setFile (pathJoin "downloads" f) bs
                        (createDirAll "downloads" st.fs).files },
            output := st.output ++ [msgDone f (pathJoin "downloads" f) bs.length] } := by
  simp only [download_file]
  rw [h]
  simp [hok, hcc, hcopy]

theorem download_file_copyFail (server : Server) (url f : String) (code : Nat) (body : List Chunk)
    (w : List Nat) (e : String) (st : PState)
    (h : server (url ++ "/" ++ f) = .http code body)
    (hok : isErrorStatus code = false)
    (hcc : canCreateFile (createDirAll "downloads" st.fs) (pathJoin "downloads" f) = true)
    (hcopy : ioCopy body = .failed w e) :
    download_file server url f st =
      .panicked (msgCopyFail (pathJoin "downloads" f) e)
        { st with fs := { createDirAll "downloads" st.fs with
                            files := setFile (pathJoin "downloads" f) w
                              (createDirAll "downloads" st.fs).files } } := by
  simp only [download_file]
  rw [h]
  simp [hok, hcc, hcopy]

theorem download_file_createFail (server : Server) (url f : String) (code : Nat)
    (body : List Chunk) (st : PState)
    (h : server (url ++ "/" ++ f) = .http code body)
    (hok : isErrorStatus code = false)
    (hcc : canCreateFile (createDirAll "downloads" st.fs) (pathJoin "downloads" f) = false) :
    download_file server url f st =
      .panicked (msgCreateFail (pathJoin "downloads" f))
        { st with fs := createDirAll "downloads" st.fs } := by
  simp only [download_file]
  rw [h]
  simp [hok, hcc]

theorem download_file_ok_inv (server : Server) (url f : String) (st st' : PState)
    (h : download_file server url f st = .ok st') :
    ∃ code body bs,
      server (url ++ "/" ++ f) = .http code body ∧
      isErrorStatus code = false ∧
      ioCopy body = .ok bs ∧
      canCreateFile (createDirAll "downloads" st.fs) (pathJoin "downloads" f) = true ∧
      st' = { fs := { createDirAll "downloads" st.fs with
                        files := setFile (pathJoin "downloads" f) bs
                          (createDirAll "downloads" st.fs).files },
              output := st.output ++ [msgDone f (pathJoin "downloads" f) bs.length] } := by
  rcases hr : server (url ++ "/" ++ f) with e | ⟨code, body⟩
  · rw [download_file_transport server url f e st hr] at h
    exact absurd h (by simp)
  · by_cases herr : isErrorStatus code = true
    · by_cases h404 : code = 404
      · subst h404
        rw [download_file_404 server url f body st hr] at h
        exact absurd h (by simp)
      · rw [download_file_httpErr server url f code body st hr herr h404] at h
        exact absurd h (by simp)
    · rw [Bool.not_eq_true] at herr
      by_cases hcc : canCreateFile (createDirAll "downloads" st.fs) (pathJoin "downloads" f) = true
      · rcases hcopy : ioCopy body with ⟨bs⟩ | ⟨w, e⟩
        · rw [download_file_ok_of server url f code body bs st hr herr hcc hcopy] at h
          exact ⟨code, body, bs, rfl, herr, hcopy, hcc, (Outcome.ok.inj h).symm⟩
        · rw [download_file_copyFail server url f code body w e st hr herr hcc hcopy] at h
          exact absurd h (by simp)
      · rw [Bool.not_eq_true] at hcc
        rw [download_file_createFail server url f code body st hr herr hcc] at h
        exact absurd h (by simp)


theorem runLoop_nil (server : Server) (url : String) (st : PState) :
    runLoop server url [] st = .ok st := rfl

theorem runLoop_cons_ok (server : Server) (url f : String) (rest : List String)
    (st st1 : PState) (h : download_file server url f st = .ok st1) :
    runLoop server url (f :: rest) st = runLoop server url rest st1 := by
  simp [runLoop, h]

theorem runLoop_cons_panic (server : Server) (url f : String) (rest : List String)
    (st st1 : PState) (m : String) (h : download_file server url f st = .panicked m st1) :
    runLoop server url (f :: rest) st = .panicked m st1 := by
  simp [runLoop, h]

theorem runLoop_append_ok (server : Server) (url : String) (l1 l2 : List String)
    (st st1 : PState) (h : runLoop server url l1 st = .ok st1) :
    runLoop server url (l1 ++ l2) st = runLoop server url l2 st1 := by
  induction l1 generalizing st with
  | nil =>
    cases h
    rfl
  | cons f rest ih =>
    cases hd : download_file server url f st with
    | ok st2 =>
      rw [runLoop_cons_ok server url f rest st st2 hd] at h
      rw [List.cons_append, runLoop_cons_ok server url f (rest ++ l2) st st2 hd]
      exact ih st2 h
    | panicked m st2 =>
      rw [runLoop_cons_panic server url f rest st st2 m hd] at h
      exact absurd h (by simp)

theorem lookup_setFile_self (p : String) (bs : List Nat)
    (files : List (String × List Nat)) :
    List.lookup p (setFile p bs files) = some bs := by
  simp [setFile, List.lookup]

theorem lookup_filter_ne (q p : String) (h : q ≠ p) (files : List (String × List Nat)) :
    List.lookup q (files.filter (fun e => e.1 ≠ p)) = List.lookup q files := by
  induction files with
  | nil => rfl
  | cons e rest ih =>
    obtain ⟨k, v⟩ := e
    simp only [decide_not] at ih
    by_cases hk : k = p
    · subst hk
      have hq : (q == k) = false := beq_eq_false_iff_ne.mpr h
      simp [List.filter_cons, List.lookup, hq, ih]
    · by_cases hqk : q = k
      · subst hqk
        simp [List.filter_cons, List.lookup, hk]
      · have hq : (q == k) = false := beq_eq_false_iff_ne.mpr hqk
        simp [List.filter_cons, List.lookup, hq, hk, ih]

theorem lookup_setFile_ne (q p : String) (bs : List Nat) (h : q ≠ p)
    (files : List (String × List Nat)) :
    List.lookup q (setFile p bs files) = List.lookup q files := by
  have hq : (q == p) = false := beq_eq_false_iff_ne.mpr h
  have hf := lookup_filter_ne q p h files
  simp only [decide_not] at hf
  simp [setFile, List.lookup, hq, hf]

theorem setFile_of_fresh (p : String) (bs : List Nat) (files : List (String × List Nat))
    (h : ∀ e ∈ files, e.1 ≠ p) : setFile p bs files = (p, bs) :: files := by
  unfold setFile
  congr 1
  exact List.filter_eq_self.mpr (fun a ha => by simpa using h a ha)

theorem ancestors_downloads : ancestors "downloads" = ["downloads"] := by decide

theorem mem_addDir (d : String) (ds : List String) : d ∈ addDir d ds := by
  by_cases h : d ∈ ds <;> simp [addDir, h]

theorem addDir_idem (d : String) (ds : List String) :
    addDir d (addDir d ds) = addDir d ds := by
  by_cases h : d ∈ ds <;> simp [addDir, h]

theorem createDirAll_downloads (fs : FS) :
    createDirAll "downloads" fs = { fs with dirs := addDir "downloads" fs.dirs } := by
  simp [createDirAll, ancestors_downloads]

theorem createDirAll_downloads_idem (fs : FS) :
    createDirAll "downloads" (createDirAll "downloads" fs) = createDirAll "downloads" fs := by
  simp [createDirAll_downloads, addDir_idem]

theorem dirExists_after_create (fs : FS) :
    dirExists (createDirAll "downloads" fs) "downloads" = true := by
  simp [dirExists, createDirAll_downloads, mem_addDir]

theorem runLoop_preserves_lookup (server : Server) (url : String) (l : List String)
    (st st' : PState) (H : runLoop server url l st = .ok st') (p : String)
    (hp : ∀ g ∈ l, pathJoin "downloads" g ≠ p) :
    List.lookup p st'.fs.files = List.lookup p st.fs.files := by
  induction l generalizing st with
  | nil =>
    cases H
    rfl
  | cons g rest ih =>
    cases hd : download_file server url g st with
    | ok st1 =>
      rw [runLoop_cons_ok server url g rest st st1 hd] at H
      obtain ⟨code, body, bs, hsrv, herr, hcopy, hcc, hst1⟩ :=
        download_file_ok_inv server url g st st1 hd
      have h1 : List.lookup p st1.fs.files = List.lookup p st.fs.files := by
        rw [hst1]
        exact lookup_setFile_ne p (pathJoin "downloads" g) bs
          (fun hpe => hp g (List.mem_cons_self g rest) hpe.symm)
          (createDirAll "downloads" st.fs).files
      rw [ih st1 H (fun g2 hg2 => hp g2 (List.mem_cons_of_mem g hg2)), h1]
    | panicked m st1 =>
      rw [runLoop_cons_panic server url g rest st st1 m hd] at H
      exact absurd H (by simp)

theorem runLoop_ok_lookup (server : Server) (url : String) (l : List String)
    (st st' : PState) (hnd : (l.map (pathJoin "downloads")).Nodup)
    (H : runLoop server url l st = .ok st') :
    ∀ f ∈ l, ∃ code body bs,
      server (url ++ "/" ++ f) = .http code body ∧
      isErrorStatus code = false ∧
      ioCopy body = .ok bs ∧
      List.lookup (pathJoin "downloads" f) st'.fs.files = some bs := by
  induction l generalizing st with
  | nil => intro f hf; cases hf
  | cons g rest ih =>
    rw [List.map_cons, List.nodup_cons] at hnd
    obtain ⟨hgf, hndr⟩ := hnd
    cases hd : download_file server url g st with
    | ok st1 =>
      rw [runLoop_cons_ok server url g rest st st1 hd] at H
      obtain ⟨code, body, bs, hsrv, herr, hcopy, hcc, hst1⟩ :=
        download_file_ok_inv server url g st st1 hd
      intro f hf
      rcases List.mem_cons.mp hf with hfg | hfr
      · subst hfg
        refine ⟨code, body, bs, hsrv, herr, hcopy, ?_⟩
        have hpres : List.lookup (pathJoin "downloads" f) st'.fs.files =
            List.lookup (pathJoin "downloads" f) st1.fs.files := by
          refine runLoop_preserves_lookup server url rest st1 st' H _ ?_
          intro g2 hg2 heq
          exact hgf (heq ▸ List.mem_map_of_mem (pathJoin "downloads") hg2)
        rw [hpres, hst1]
        exact lookup_setFile_self (pathJoin "downloads" f) bs
          (createDirAll "downloads" st.fs).files
      · exact ih st1 hndr H f hfr
    | panicked m st1 =>
      rw [runLoop_cons_panic server url g rest st st1 m hd] at H
      exact absurd H (by simp)

theorem runLoop_ok_output (server : Server) (url : String) (l : List String)
    (st st' : PState) (H : runLoop server url l st = .ok st') :
    ∃ ns : List Nat, ns.length = l.length ∧
      st'.output = st.output ++
        List.zipWith (fun f n => msgDone f (pathJoin "downloads" f) n) l ns := by
  induction l generalizing st with
  | nil =>
    cases H
    exact ⟨[], rfl, by simp⟩
  | cons g rest ih =>
    cases hd : download_file server url g st with
    | ok st1 =>
      rw [runLoop_cons_ok server url g rest st st1 hd] at H
      obtain ⟨code, body, bs, hsrv, herr, hcopy, hcc, hst1⟩ :=
        download_file_ok_inv server url g st st1 hd
      obtain ⟨ns, hlen, hout⟩ := ih st1 H
      refine ⟨bs.length :: ns, by simp [hlen], ?_⟩
      rw [hout, hst1]
      simp [List.zipWith]
    | panicked m st1 =>
      rw [runLoop_cons_panic server url g rest st st1 m hd] at H
      exact absurd H (by simp)

theorem runLoop_ok_keys (server : Server) (url : String) (l : List String)
    (st st' : PState)
    (hfresh : ∀ f ∈ l, ∀ e ∈ st.fs.files, e.1 ≠ pathJoin "downloads" f)
    (hnd : (l.map (pathJoin "downloads")).Nodup)
    (H : runLoop server url l st = .ok st') :
    st'.fs.files.map Prod.fst =
      (l.map (pathJoin "downloads")).reverse ++ st.fs.files.map Prod.fst := by
  induction l generalizing st with
  | nil =>
    cases H
    simp
  | cons g rest ih =>
    rw [List.map_cons, List.nodup_cons] at hnd
    obtain ⟨hgf, hndr⟩ := hnd
    cases hd : download_file server url g st with
    | ok st1 =>
      rw [runLoop_cons_ok server url g rest st st1 hd] at H
      obtain ⟨code, body, bs, hsrv, herr, hcopy, hcc, hst1⟩ :=
        download_file_ok_inv server url g st st1 hd
      have hsf : setFile (pathJoin "downloads" g) bs (createDirAll "downloads" st.fs).files =
          (pathJoin "downloads" g, bs) :: st.fs.files := by
        have : (createDirAll "downloads" st.fs).files = st.fs.files := by
          rw [createDirAll_downloads]
        rw [this]
        exact setFile_of_fresh _ bs st.fs.files (hfresh g (List.mem_cons_self g rest))
      have hkeys1 : st1.fs.files.map Prod.fst =
          pathJoin "downloads" g :: st.fs.files.map Prod.fst := by
        rw [hst1]
        simp [hsf]
      have hfresh1 : ∀ f ∈ rest, ∀ e ∈ st1.fs.files, e.1 ≠ pathJoin "downloads" f := by
        intro f hf e he
        rw [hst1] at he
        simp only at he
        rw [hsf] at he
        rcases List.mem_cons.mp he with he1 | he2
        · subst he1
          intro heq
          have heq2 : pathJoin "downloads" g = pathJoin "downloads" f := heq
          exact hgf (heq2 ▸ List.mem_map_of_mem (pathJoin "downloads") hf)
        · exact hfresh f (List.mem_cons_of_mem g hf) e he2
      have := ih st1 hfresh1 hndr H
      rw [this, hkeys1]
      simp

    | panicked m st1 =>
      rw [runLoop_cons_panic server url g rest st st1 m hd] at H
      exact absurd H (by simp)


theorem msgNotFound_ne_msgHttpErr (f u : String) (code : Nat) :
    msgNotFound f u ≠ msgHttpErr f u code := by
  intro h
  have h1 : (msgNotFound f u).data.head? = some 'A' := by
    simp only [msgNotFound, String.data_append]
    rfl
  have h2 : (msgHttpErr f u code).data.head? = some 'E' := by
    simp only [msgHttpErr, String.data_append]
    rfl
  rw [h, h2] at h1
  exact absurd h1 (by decide)

/-- C1: the fetch issues its GET request to exactly the address
`base_location ++ "/" ++ identifier`: two networks that agree at that one
address produce identical fetch behaviour. -/
theorem fetch_requests_exact_address (s1 s2 : Server) (url f : String) (st : PState)
    (h : s1 (url ++ "/" ++ f) = s2 (url ++ "/" ++ f)) :
    download_file s1 url f st = download_file s2 url f st := by
  simp only [download_file]
  rw [h]

def agreeServerA : Server := fun u =>
  if u = "http://b/x.jpg" then .http 200 [Chunk.bytes [7]] else .transportErr "down"

def agreeServerB : Server := fun _ => .http 200 [Chunk.bytes [7]]

theorem fetch_requests_exact_address_witness :
    download_file agreeServerA "http://b" "x.jpg" initialState =
      download_file agreeServerB "http://b" "x.jpg" initialState :=
  fetch_requests_exact_address agreeServerA agreeServerB "http://b" "x.jpg"
    initialState (by decide)

/-- C2: on success of a fetch with a relative identifier, the `downloads`
directory exists, the destination file `downloads/<identifier>` holds
exactly the full response body, and pre-creating the directory (it already
existing) changes nothing: the run still succeeds with the same state. -/
theorem fetch_success_writes (server : Server) (url f : String) (fs : FS)
    (out : List String) (st' : PState)
    (hrel : isAbsolute f = false)
    (H : download_file server url f { fs := fs, output := out } = .ok st') :
    dirExists st'.fs "downloads" = true ∧
    (∃ code body bs,
      server (url ++ "/" ++ f) = .http code body ∧
      isErrorStatus code = false ∧
      ioCopy body = .ok bs ∧
      List.lookup ("downloads" ++ "/" ++ f) st'.fs.files = some bs) ∧
    download_file server url f { fs := createDirAll "downloads" fs, output := out } =
      .ok st' := by
  obtain ⟨code, body, bs, hsrv, herr, hcopy, hcc, hst⟩ :=
    download_file_ok_inv server url f _ st' H
  have hpath : pathJoin "downloads" f = "downloads" ++ "/" ++ f := by
    simp [pathJoin, hrel]
  refine ⟨?_, ⟨code, body, bs, hsrv, herr, hcopy, ?_⟩, ?_⟩
  · rw [hst]
    simp [dirExists, createDirAll_downloads, mem_addDir]
  · rw [hst, ← hpath]
    exact lookup_setFile_self (pathJoin "downloads" f) bs
      (createDirAll "downloads" fs).files
  · have hcc2 : canCreateFile
        (createDirAll "downloads" (PState.mk (createDirAll "downloads" fs) out).fs)
        (pathJoin "downloads" f) = true := by
      simpa [createDirAll_downloads_idem] using hcc
    rw [download_file_ok_of server url f code body bs
      ⟨createDirAll "downloads" fs, out⟩ hsrv herr hcc2 hcopy, hst]
    simp [createDirAll_downloads_idem]

def plainServer : Server := fun _ => .http 200 [Chunk.bytes [7, 8]]

theorem fetch_success_writes_witness :
    dirExists (PState.mk
      (FS.mk ["downloads"] [("downloads/a.jpg", [7, 8])])
      [msgDone "a.jpg" "downloads/a.jpg" 2]).fs "downloads" = true ∧
    (∃ code body bs,
      plainServer ("http://b" ++ "/" ++ "a.jpg") = .http code body ∧
      isErrorStatus code = false ∧
      ioCopy body = .ok bs ∧
      List.lookup ("downloads" ++ "/" ++ "a.jpg")
        (PState.mk (FS.mk ["downloads"] [("downloads/a.jpg", [7, 8])])
          [msgDone "a.jpg" "downloads/a.jpg" 2]).fs.files = some bs) ∧
    download_file plainServer "http://b" "a.jpg"
      { fs := createDirAll "downloads" (FS.mk [] []), output := [] } =
      .ok (PState.mk (FS.mk ["downloads"] [("downloads/a.jpg", [7, 8])])
        [msgDone "a.jpg" "downloads/a.jpg" 2]) :=
  fetch_success_writes plainServer "http://b" "a.jpg" (FS.mk [] []) []
    (PState.mk (FS.mk ["downloads"] [("downloads/a.jpg", [7, 8])])
      [msgDone "a.jpg" "downloads/a.jpg" 2])
    (by decide) (by decide)

def subdirServer : Server := fun _ => .http 200 [Chunk.bytes [7]]

/-- C3 counterexample: for the identifier `sub/x.jpg` (which contains a path
separator) against a server answering 200, the fetch does not create the
intermediate subdirectory `downloads/sub` and aborts at file creation: the
directory list of the abort state holds only `downloads` and no file was
written. -/
theorem subdir_fetch_aborts_concrete :
    download_file subdirServer "http://b" "sub/x.jpg" initialState =
      .panicked (msgCreateFail "downloads/sub/x.jpg")
        { fs := { dirs := ["downloads"], files := [] }, output := [] } := by
  decide

/-- C3 amended: the fetch creates only the `downloads` directory itself;
when the identifier's intermediate subdirectory does not already exist,
creating the destination file fails and the process aborts, with only
`downloads` added to the directories. -/
theorem subdir_not_created (server : Server) (url f : String) (code : Nat)
    (body : List Chunk) (st : PState)
    (hsrv : server (url ++ "/" ++ f) = .http code body)
    (herr : isErrorStatus code = false)
    (hcc : canCreateFile (createDirAll "downloads" st.fs) (pathJoin "downloads" f) = false) :
    download_file server url f st =
      .panicked (msgCreateFail (pathJoin "downloads" f))
        { st with fs := createDirAll "downloads" st.fs } ∧
    (createDirAll "downloads" st.fs).dirs = addDir "downloads" st.fs.dirs :=
  ⟨download_file_createFail server url f code body st hsrv herr hcc,
   by rw [createDirAll_downloads]⟩

theorem subdir_not_created_witness :
    download_file subdirServer "http://b" "sub/x.jpg" initialState =
      .panicked (msgCreateFail (pathJoin "downloads" "sub/x.jpg"))
        { initialState with fs := createDirAll "downloads" initialState.fs } ∧
    (createDirAll "downloads" initialState.fs).dirs =
      addDir "downloads" initialState.fs.dirs :=
  subdir_not_created subdirServer "http://b" "sub/x.jpg" 200 [Chunk.bytes [7]]
    initialState (by decide) (by decide) (by decide)

/-- C4: when the resource of identifier `f` returns 404, the whole batch
aborts in the very state reached after the earlier identifiers: no directory
or file write happens for `f`, and every earlier identifier's file is still
on disk with its downloaded content. -/
theorem notFound_aborts_preserving_earlier (server : Server) (url f : String)
    (l1 l2 : List String) (body : List Chunk) (st1 : PState)
    (hsrv : server (url ++ "/" ++ f) = .http 404 body)
    (hnd : (l1.map (pathJoin "downloads")).Nodup)
    (h1 : runLoop server url l1 initialState = .ok st1) :
    runLoop server url (l1 ++ f :: l2) initialState =
      .panicked (msgNotFound f (url ++ "/" ++ f)) st1 ∧
    ∀ g ∈ l1, ∃ code bodyg bs,
      server (url ++ "/" ++ g) = .http code bodyg ∧
      isErrorStatus code = false ∧
      ioCopy bodyg = .ok bs ∧
      List.lookup (pathJoin "downloads" g) st1.fs.files = some bs := by
  constructor
  · rw [runLoop_append_ok server url l1 (f :: l2) initialState st1 h1]
    exact runLoop_cons_panic server url f l2 st1 st1 _
      (download_file_404 server url f body st1 hsrv)
  · exact runLoop_ok_lookup server url l1 initialState st1 hnd h1

def notFoundServer : Server := fun u =>
  if u = "http://b/bad.jpg" then .http 404 [] else .http 200 [Chunk.bytes [7]]

theorem notFound_aborts_preserving_earlier_witness :
    runLoop notFoundServer "http://b" (["a.jpg"] ++ "bad.jpg" :: ["c.jpg"]) initialState =
      .panicked (msgNotFound "bad.jpg" ("http://b" ++ "/" ++ "bad.jpg"))
        (PState.mk (FS.mk ["downloads"] [("downloads/a.jpg", [7])])
          [msgDone "a.jpg" "downloads/a.jpg" 1]) ∧
    ∀ g ∈ ["a.jpg"], ∃ code bodyg bs,
      notFoundServer ("http://b" ++ "/" ++ g) = .http code bodyg ∧
      isErrorStatus code = false ∧
      ioCopy bodyg = .ok bs ∧
      List.lookup (pathJoin "downloads" g)
        (PState.mk (FS.mk ["downloads"] [("downloads/a.jpg", [7])])
          [msgDone "a.jpg" "downloads/a.jpg" 1]).fs.files = some bs :=
  notFound_aborts_preserving_earlier notFoundServer "http://b" "bad.jpg"
    ["a.jpg"] ["c.jpg"] []
    (PState.mk (FS.mk ["downloads"] [("downloads/a.jpg", [7])])
      [msgDone "a.jpg" "downloads/a.jpg" 1])
    (by decide) (by decide) (by decide)


/-- C5: an HTTP error status (4xx/5xx) aborts the fetch; the 404 message is
used exactly for status 404, every other error status gets the generic
message, and the two messages are distinct strings. -/
theorem http_error_aborts (server : Server) (url f : String) (code : Nat)
    (body : List Chunk) (st : PState)
    (hsrv : server (url ++ "/" ++ f) = .http code body)
    (herr : isErrorStatus code = true) :
    download_file server url f st =
      .panicked (if code = 404 then msgNotFound f (url ++ "/" ++ f)
                 else msgHttpErr f (url ++ "/" ++ f) code) st ∧
    msgNotFound f (url ++ "/" ++ f) ≠ msgHttpErr f (url ++ "/" ++ f) code := by
  refine ⟨?_, msgNotFound_ne_msgHttpErr f (url ++ "/" ++ f) code⟩
  by_cases h404 : code = 404
  · subst h404
    rw [if_pos rfl]
    exact download_file_404 server url f body st hsrv
  · rw [if_neg h404]
    exact download_file_httpErr server url f code body st hsrv herr h404

def errorServer : Server := fun _ => .http 500 []

theorem http_error_aborts_witness :
    download_file errorServer "http://b" "x.jpg" initialState =
      .panicked (if (500 : Nat) = 404 then msgNotFound "x.jpg" ("http://b" ++ "/" ++ "x.jpg")
                 else msgHttpErr "x.jpg" ("http://b" ++ "/" ++ "x.jpg") 500) initialState ∧
    msgNotFound "x.jpg" ("http://b" ++ "/" ++ "x.jpg") ≠
      msgHttpErr "x.jpg" ("http://b" ++ "/" ++ "x.jpg") 500 :=
  http_error_aborts errorServer "http://b" "x.jpg" 500 [] initialState
    (by decide) (by decide)

/-- C6: when the base location is unreachable (every request fails at the
transport level), the very first fetch aborts the whole run in the initial
state: no directory was created and no file was written. -/
theorem unreachable_first_fetch_aborts (server : Server) (efn : String → String)
    (ms : Nat) (hsrv : ∀ u, server u = .transportErr (efn u)) :
    main_run server ms =
      .panicked (msgGetFail (URL ++ "/" ++ "arquivo_1.jpg")
        (efn (URL ++ "/" ++ "arquivo_1.jpg"))) initialState ∧
    initialState.fs.dirs = [] ∧ initialState.fs.files = [] := by
  refine ⟨?_, rfl, rfl⟩
  have h1 := download_file_transport server URL "arquivo_1.jpg"
    (efn (URL ++ "/" ++ "arquivo_1.jpg")) initialState (hsrv _)
  have h2 : runLoop server URL filename_list initialState =
      .panicked (msgGetFail (URL ++ "/" ++ "arquivo_1.jpg")
        (efn (URL ++ "/" ++ "arquivo_1.jpg"))) initialState := by
    show runLoop server URL ("arquivo_1.jpg" :: _) initialState = _
    exact runLoop_cons_panic server URL "arquivo_1.jpg" _ initialState initialState _ h1
  unfold main_run
  rw [h2]

def deadServer : Server := fun _ => .transportErr "connection refused"

theorem unreachable_first_fetch_aborts_witness :
    main_run deadServer 0 =
      .panicked (msgGetFail (URL ++ "/" ++ "arquivo_1.jpg") "connection refused")
        initialState ∧
    initialState.fs.dirs = [] ∧ initialState.fs.files = [] :=
  unreachable_first_fetch_aborts deadServer (fun _ => "connection refused") 0
    (fun _ => rfl)

/-- C7: when every fetch of the static list succeeds, the driver performed
one fetch per identifier in list order (the output is one completion line
per identifier, in order), exactly nine files are on disk, and the run ends
by printing the elapsed duration, formatted with one decimal digit, from
the externally measured wall-clock milliseconds (a natural number, hence
non-negative). -/
theorem driver_success_reports (server : Server) (ms : Nat) (st : PState)
    (H : runLoop server URL filename_list initialState = .ok st) :
    main_run server ms = .ok { st with output := st.output ++ [msgElapsed ms] } ∧
    (∃ ns : List Nat, ns.length = 9 ∧
      st.output =
        List.zipWith (fun f n => msgDone f (pathJoin "downloads" f) n) filename_list ns) ∧
    st.fs.files.map Prod.fst = (filename_list.map (pathJoin "downloads")).reverse ∧
    st.fs.files.length = 9 ∧
    msgElapsed ms = "Downloaded files in " ++
      (toString (((ms + 50) / 100) / 10) ++ "." ++ toString (((ms + 50) / 100) % 10)) ++
      " seconds" ∧
    ((ms + 50) / 100) % 10 < 10 := by
  have hkeys := runLoop_ok_keys server URL filename_list initialState st
    (by intro f hf e he; cases he) (by decide) H
  refine ⟨?_, ?_, ?_, ?_, rfl, Nat.mod_lt _ (by decide)⟩
  · unfold main_run
    rw [H]
  · obtain ⟨ns, hlen, hout⟩ := runLoop_ok_output server URL filename_list initialState st H
    exact ⟨ns, by simpa using hlen, by simpa using hout⟩
  · simpa using hkeys
  · have hlen := congrArg List.length hkeys
    simpa using hlen

def batchServer : Server := fun _ => .http 200 [Chunk.bytes [1, 2]]

def batchState : PState :=
  match runLoop batchServer URL filename_list initialState with
  | .ok st => st
  | .panicked _ st => st

theorem driver_success_reports_witness :
    main_run batchServer 2345 =
      .ok { batchState with output := batchState.output ++ [msgElapsed 2345] } ∧
    (∃ ns : List Nat, ns.length = 9 ∧
      batchState.output =
        List.zipWith (fun f n => msgDone f (pathJoin "downloads" f) n) filename_list ns) ∧
    batchState.fs.files.map Prod.fst =
      (filename_list.map (pathJoin "downloads")).reverse ∧
    batchState.fs.files.length = 9 ∧
    msgElapsed 2345 = "Downloaded files in " ++
      (toString (((2345 + 50) / 100) / 10) ++ "." ++ toString (((2345 + 50) / 100) % 10)) ++
      " seconds" ∧
    ((2345 + 50) / 100) % 10 < 10 :=
  driver_success_reports batchServer 2345 batchState (by decide)

/-- C8: a successful run of the whole batch from any starting filesystem (in
particular one already holding the files from a previous successful run)
leaves every `downloads/<identifier>` equal to exactly the freshly fetched
body: the file is truncated and rewritten, never appended to. -/
theorem rerun_overwrites (server : Server) (st st' : PState)
    (H : runLoop server URL filename_list st = .ok st') :
    ∀ f ∈ filename_list, ∃ code body bs,
      server (URL ++ "/" ++ f) = .http code body ∧
      isErrorStatus code = false ∧
      ioCopy body = .ok bs ∧
      List.lookup (pathJoin "downloads" f) st'.fs.files = some bs :=
  runLoop_ok_lookup server URL filename_list st st' (by decide) H

def rerunServer : Server := fun _ => .http 200 [Chunk.bytes [5]]

def stalePrev : PState :=
  { fs := { dirs := ["downloads"],
            files := [("downloads/arquivo_1.jpg", [9, 9, 9, 9])] },
    output := [] }

def rerunState : PState :=
  match runLoop rerunServer URL filename_list stalePrev with
  | .ok st => st
  | .panicked _ st => st

theorem rerun_overwrites_witness :
    ∃ code body bs,
      rerunServer (URL ++ "/" ++ "arquivo_1.jpg") = .http code body ∧
      isErrorStatus code = false ∧
      ioCopy body = .ok bs ∧
      List.lookup (pathJoin "downloads" "arquivo_1.jpg") rerunState.fs.files = some bs :=
  rerun_overwrites rerunServer stalePrev rerunState (by decide) "arquivo_1.jpg"
    (by decide)

/-- C9: when the byte-copy from the response stream fails midway, the fetch
aborts with no cleanup and no retry: the abort state still holds the
destination file, containing exactly the bytes written before the failure
(a possibly truncated file remains on disk). -/
theorem copy_failure_leaves_partial (server : Server) (url f : String) (code : Nat)
    (body : List Chunk) (w : List Nat) (e : String) (st : PState)
    (hsrv : server (url ++ "/" ++ f) = .http code body)
    (herr : isErrorStatus code = false)
    (hcc : canCreateFile (createDirAll "downloads" st.fs) (pathJoin "downloads" f) = true)
    (hcopy : ioCopy body = .failed w e) :
    download_file server url f st =
      .panicked (msgCopyFail (pathJoin "downloads" f) e)
        { st with fs := { createDirAll "downloads" st.fs with
            files := setFile (pathJoin "downloads" f) w
              (createDirAll "downloads" st.fs).files } } ∧
    List.lookup (pathJoin "downloads" f)
      (setFile (pathJoin "downloads" f) w (createDirAll "downloads" st.fs).files) =
      some w :=
  ⟨download_file_copyFail server url f code body w e st hsrv herr hcc hcopy,
   lookup_setFile_self (pathJoin "downloads" f) w (createDirAll "downloads" st.fs).files⟩

def flakyServer : Server :=
  fun _ => .http 200 [Chunk.bytes [1], Chunk.ioErr "connection reset"]

theorem copy_failure_leaves_partial_witness :
    download_file flakyServer "http://b" "x.jpg" initialState =
      .panicked (msgCopyFail (pathJoin "downloads" "x.jpg") "connection reset")
        { initialState with fs := { createDirAll "downloads" initialState.fs with
            files := setFile (pathJoin "downloads" "x.jpg") [1]
              (createDirAll "downloads" initialState.fs).files } } ∧
    List.lookup (pathJoin "downloads" "x.jpg")
      (setFile (pathJoin "downloads" "x.jpg") [1]
        (createDirAll "downloads" initialState.fs).files) = some [1] :=
  copy_failure_leaves_partial flakyServer "http://b" "x.jpg" 200
    [Chunk.bytes [1], Chunk.ioErr "connection reset"] [1] "connection reset"
    initialState (by decide) (by decide) (by decide) (by decide)

/-- C10: the compiled-in constants are the base location
`http://arquivos.afonsomiguel.com` and exactly the nine identifiers
`arquivo_1.jpg` .. `arquivo_9.jpg` in increasing numeric order, with no
`arquivo_0.jpg`. -/
theorem compiled_constants :
    URL = "http://arquivos.afonsomiguel.com" ∧
    filename_list = (List.range 9).map (fun i => "arquivo_" ++ toString (i + 1) ++ ".jpg") ∧
    filename_list.length = 9 ∧
    "arquivo_0.jpg" ∉ filename_list := by
  decide

end ThreadDownload
